import Mathlib

/-!
Shallow embedding of the points-ledger and redemption engine of the
`step3-2_BtoB_backend` repository (files `app/api/v1/endpoints/rewards.py`,
`app/api/v1/endpoints/mobile.py`, `app/api/v1/endpoints/admin.py`,
`app/api/v1/endpoints/points.py`, and the ORM models under `app/models/`).

Modelling conventions:
* Integer columns are `Int` / `Nat`; SQL float columns (`PointRule.value`,
  `ReductionRecord.reduced_co2_kg`) are modelled as `ℚ` (exact arithmetic in
  place of IEEE floats).
* A table is a `List` of rows in insertion order.  `created_at` timestamps are
  not stored: the queries `order_by(desc(created_at)).first()` are modelled as
  taking the last element of the filtered list, matching the per-user total
  order by `(created_at, id)` (ids are assigned monotonically).
* An ORM mutation of one fetched row (`reward.stock -= 1`, `setattr` in the
  admin update) is modelled by `updateFirst`, which rewrites the first row
  matched by the lookup predicate.
* An endpoint returns `Except err result × DBState`: raising an HTTP error
  before `db.commit()` leaves the state unchanged, so error branches return
  the input state.
* Python `int()` applied to a nonnegative product truncates toward zero; it is
  modelled by `pyInt`.
-/

namespace BtoB

/-- Row of the `points_ledger` table (`app/models/points_ledger.py`). -/
structure PointsLedger where
  user_id : Nat
  delta : Int
  reason : String
  reference_id : Option Nat
  balance_after : Int
deriving DecidableEq

/-- Row of the `rewards` table (`app/models/reward.py`). -/
structure Reward where
  id : Nat
  title : String
  description : Option String
  category : String
  stock : Int
  points_required : Int
  active : Bool
deriving DecidableEq

/-- Status enum of the `redemptions` table: 申請中 / 承認 / 却下 / 発送済. -/
inductive RedemptionStatus where
  | pending
  | approved
  | rejected
  | shipped
deriving DecidableEq

/-- Row of the `redemptions` table (`app/models/redemption.py`). -/
structure Redemption where
  id : Nat
  user_id : Nat
  reward_id : Nat
  points_spent : Int
  status : RedemptionStatus
deriving DecidableEq

/-- Rule type enum of `point_rules` (`app/models/point_rule.py`). -/
inductive RuleType where
  | per_kg
  | rank_bonus
deriving DecidableEq

/-- Row of the `point_rules` table (`app/models/point_rule.py`). -/
structure PointRule where
  id : Nat
  name : String
  rule_type : RuleType
  value : ℚ
  active : Bool
deriving DecidableEq

/-- Row of the `reduction_records` table (`app/models/reduction_record.py`);
only the fields read by `apply_point_rules` are kept. -/
structure ReductionRecord where
  user_id : Nat
  date : Nat
  reduced_co2_kg : ℚ
deriving DecidableEq

/-- The database state visible to the points/redemption endpoints. -/
structure DBState where
  ledger : List PointsLedger
  rewards : List Reward
  redemptions : List Redemption
  rules : List PointRule
  records : List ReductionRecord
  nextRedemptionId : Nat
  nextRewardId : Nat
deriving DecidableEq

/-- Endpoint results live in `Except`; equality of results is decidable. -/
instance exceptDecEq {ε α : Type} [DecidableEq ε] [DecidableEq α] :
    DecidableEq (Except ε α)
  | .error a, .error b =>
    match decEq a b with
    | isTrue h => isTrue (by rw [h])
    | isFalse h => isFalse (fun hh => h (by cases hh; rfl))
  | .error _, .ok _ => isFalse (fun hh => by cases hh)
  | .ok _, .error _ => isFalse (fun hh => by cases hh)
  | .ok a, .ok b =>
    match decEq a b with
    | isTrue h => isTrue (by rw [h])
    | isFalse h => isFalse (fun hh => h (by cases hh; rfl))

/-- Error kinds raised (as HTTP errors) by the modelled endpoints. -/
inductive RedeemError where
  | NotFound
  | OutOfStock
  | InsufficientPoints
deriving DecidableEq

/-- Error kind raised by `apply_point_rules`. -/
inductive ApplyError where
  | NoActiveRules
deriving DecidableEq

/-- `db.query(PointsLedger).filter(user_id == uid).order_by(desc(created_at)).first()`,
then `.balance_after if ... else 0` — on the list model: the last entry of the
user's sub-ledger, defaulting to 0. -/
def latestBalanceL (l : List PointsLedger) (uid : Nat) : Int :=
  match (l.filter (fun e => e.user_id == uid)).getLast? with
  | none => 0
  | some e => e.balance_after

/-- Current balance of a user in a database state. -/
def DBState.latestBalance (s : DBState) (uid : Nat) : Int :=
  latestBalanceL s.ledger uid

/-- Rewrite the first list element satisfying `p` by `f`: the effect of
mutating the single ORM row returned by a `.first()` lookup. -/
def updateFirst (p : α → Bool) (f : α → α) : List α → List α
  | [] => []
  | x :: xs => if p x then f x :: xs else x :: updateFirst p f xs

/-- `db.query(Reward).filter(Reward.id == rid, Reward.active == True).first()`
(`rewards.py` lines 74-77). -/
def findActiveReward (s : DBState) (rid : Nat) : Option Reward :=
  s.rewards.find? (fun r => r.id == rid && r.active)

/-- Validation snapshot taken by `exchange_reward` before it writes. -/
structure RedeemPlan where
  reward : Reward
  balance : Int
deriving DecidableEq

/-- The read/validation phase of `exchange_reward` (`rewards.py` lines 73-103):
look up the active reward, check stock, read the latest balance, check
sufficiency.  Returns the snapshot used by the write phase. -/
def redeemCheckE (s : DBState) (uid rid : Nat) : Except RedeemError RedeemPlan :=
  match findActiveReward s rid with
  | none => .error .NotFound
  | some reward =>
    if reward.stock ≤ 0 then .error .OutOfStock
    else if s.latestBalance uid < reward.points_required then .error .InsufficientPoints
    else .ok ⟨reward, s.latestBalance uid⟩

/-- The write phase of `exchange_reward` (`rewards.py` lines 105-130): insert
the Redemption (status 申請中 = pending), insert the ledger entry computed from
the snapshot balance, assign `stock := snapshot stock - 1` on the reward row,
commit. -/
def redeemCommitE (s : DBState) (uid : Nat) (p : RedeemPlan) :
    Redemption × DBState :=
  (⟨s.nextRedemptionId, uid, p.reward.id, p.reward.points_required, .pending⟩,
    { s with
      ledger := s.ledger ++
        [⟨uid, -p.reward.points_required, "景品交換: " ++ p.reward.title,
          some s.nextRedemptionId, p.balance - p.reward.points_required⟩]
      redemptions := s.redemptions ++
        [⟨s.nextRedemptionId, uid, p.reward.id, p.reward.points_required, .pending⟩]
      rewards := updateFirst (fun r => r.id == p.reward.id)
        (fun r => { r with stock := p.reward.stock - 1 }) s.rewards
      nextRedemptionId := s.nextRedemptionId + 1 })

/-- `POST /rewards/exchange` (`rewards.py` lines 65-132): the sequential
execution runs the check and the commit against the same state. -/
def exchange_reward (s : DBState) (uid rid : Nat) :
    Except RedeemError Redemption × DBState :=
  match redeemCheckE s uid rid with
  | .error e => (.error e, s)
  | .ok p => (.ok (redeemCommitE s uid p).1, (redeemCommitE s uid p).2)

/-- `db.query(Reward).filter(id == pid, active == True, stock > 0).first()`
(`mobile.py` lines 41-45): the stock condition is part of the lookup. -/
def findMobileProduct (s : DBState) (pid : Nat) : Option Reward :=
  s.rewards.find? (fun r => r.id == pid && r.active && decide (0 < r.stock))

/-- `POST /mobile/redeem` (`mobile.py` lines 32-106): like the exchange
endpoint but the lookup already filters `stock > 0` (a missing or sold-out
product is a 404), and the redemption is created with status 承認 (approved). -/
def redeem_product (s : DBState) (uid pid : Nat) :
    Except RedeemError Redemption × DBState :=
  match findMobileProduct s pid with
  | none => (.error .NotFound, s)
  | some product =>
    if s.latestBalance uid < product.points_required then (.error .InsufficientPoints, s)
    else
      (.ok ⟨s.nextRedemptionId, uid, product.id, product.points_required, .approved⟩,
        { s with
          ledger := s.ledger ++
            [⟨uid, -product.points_required, "商品交換: " ++ product.title,
              some s.nextRedemptionId, s.latestBalance uid - product.points_required⟩]
          redemptions := s.redemptions ++
            [⟨s.nextRedemptionId, uid, product.id, product.points_required, .approved⟩]
          rewards := updateFirst (fun r => r.id == product.id)
            (fun r => { r with stock := product.stock - 1 }) s.rewards
          nextRedemptionId := s.nextRedemptionId + 1 })

/-- `GET /mobile/points/balance` (`mobile.py` lines 109-126), the
`current_balance` field of the response. -/
def get_points_balance (s : DBState) (uid : Nat) : Int :=
  match (s.ledger.filter (fun e => e.user_id == uid)).getLast? with
  | none => 0
  | some e => e.balance_after

/-- Response of `GET /points/me` (`app/schemas/points.py` PointsSummary);
`this_month_earned` is omitted (wall-clock dependent, outside the model). -/
structure PointsSummary where
  current_balance : Int
  total_earned : Int
  total_spent : Int
deriving DecidableEq

/-- `GET /points/me` (`points.py` lines 19-60): latest snapshot balance, sum
of positive deltas, sum of negated negative deltas. -/
def get_my_points (s : DBState) (uid : Nat) : PointsSummary :=
  { current_balance :=
      match (s.ledger.filter (fun e => e.user_id == uid)).getLast? with
      | none => 0
      | some e => e.balance_after
    total_earned :=
      (((s.ledger.filter (fun e => e.user_id == uid)).filter
        (fun e => decide (0 < e.delta))).map (fun e => e.delta)).sum
    total_spent :=
      (((s.ledger.filter (fun e => e.user_id == uid)).filter
        (fun e => decide (e.delta < 0))).map (fun e => -e.delta)).sum }

/-- Pydantic `RewardCreate` (`app/schemas/rewards.py`): note that `stock` has
no nonnegativity constraint. -/
structure RewardCreate where
  title : String
  description : Option String
  category : String
  stock : Int
  points_required : Int
  active : Bool
deriving DecidableEq

/-- Pydantic `RewardUpdate` (`app/schemas/rewards.py` lines 29-36): every
field optional, none validated. -/
structure RewardUpdate where
  title : Option String
  description : Option String
  category : Option String
  stock : Option Int
  points_required : Option Int
  active : Option Bool
deriving DecidableEq

/-- The `setattr` loop of `update_reward` over `dict(exclude_unset=True)`. -/
def applyRewardUpdate (u : RewardUpdate) (r : Reward) : Reward :=
  { r with
    title := u.title.getD r.title
    description := if u.description.isSome then u.description else r.description
    category := u.category.getD r.category
    stock := u.stock.getD r.stock
    points_required := u.points_required.getD r.points_required
    active := u.active.getD r.active }

/-- `POST /admin/rewards` (`admin.py` lines 40-51): inserts the row as sent,
with no validation of `stock`. -/
def create_reward (s : DBState) (c : RewardCreate) : Reward × DBState :=
  let r : Reward :=
    ⟨s.nextRewardId, c.title, c.description, c.category, c.stock,
      c.points_required, c.active⟩
  (r, { s with rewards := s.rewards ++ [r], nextRewardId := s.nextRewardId + 1 })

/-- `PUT /admin/rewards/{reward_id}` (`admin.py` lines 54-75): fetch by id,
apply the unset-excluded fields, commit; no validation of `stock`. -/
def update_reward (s : DBState) (rid : Nat) (u : RewardUpdate) :
    Except RedeemError Reward × DBState :=
  match s.rewards.find? (fun r => r.id == rid) with
  | none => (.error .NotFound, s)
  | some r₀ =>
    (.ok (applyRewardUpdate u r₀),
      { s with rewards := updateFirst (fun r => r.id == rid) (applyRewardUpdate u) s.rewards })

/-- Python `int()` on a real value: truncation toward zero (`admin.py` line
217, `points = int(total_co2 * rule.value)`): the floor for nonnegative
arguments, `-floor(-q)` (the ceiling) for negative ones.  `Rat.floor` is the
computable floor of Batteries (equal to `Int.floor`). -/
def pyInt (q : ℚ) : Int :=
  if 0 ≤ q then q.floor else -((-q).floor)

/-- The reason string of an accrual entry (`admin.py` line 231):
`f"\x7bperiod\x7d \x7brule.name\x7d (CO2削減: \x7btotal_co2:.2f\x7dkg)"`; the
numeric rendering is modelled by `toString` on the exact rational. -/
def mkAccrualReason (period name : String) (kg : ℚ) : String :=
  period ++ " " ++ name ++ " (CO2削減: " ++ toString kg ++ "kg)"

/-- One step of the `user_totals` grouping loop (`admin.py` lines 209-212):
a Python dict keyed by `user_id`, in first-appearance order. -/
def addTotal (acc : List (Nat × ℚ)) (r : ReductionRecord) : List (Nat × ℚ) :=
  if acc.any (fun p => p.1 == r.user_id) then
    acc.map (fun p => if p.1 == r.user_id then (p.1, p.2 + r.reduced_co2_kg) else p)
  else acc ++ [(r.user_id, r.reduced_co2_kg)]

/-- Per-user totals of `reduced_co2_kg` over the fetched records. -/
def userTotals (rs : List ReductionRecord) : List (Nat × ℚ) :=
  rs.foldl addTotal []

/-- Records of the period: `date >= start_date, date < end_date`
(`admin.py` lines 199-202). -/
def periodRecords (rs : List ReductionRecord) (startD endD : Nat) : List ReductionRecord :=
  rs.filter (fun r => startD ≤ r.date && r.date < endD)

/-- `db.query(PointRule).filter(rule_type == 'per_kg', active == True)`
(`admin.py` lines 187-190). -/
def activePerKgRules (rules : List PointRule) : List PointRule :=
  rules.filter (fun r => r.rule_type == .per_kg && r.active)

/-- The body of the inner rule loop (`admin.py` lines 216-234): award
`int(total * value)` points when positive.  The session is created with
`autoflush=False` (`app/db/database.py` line 58) and the loop never flushes,
so the mid-loop balance query (`admin.py` lines 220-224) sees only the rows
committed before the run: each entry's `balance_after` is computed from
`base`, the pre-run ledger, not from entries appended earlier in the same
run. -/
def accrueOne (period : String) (uid : Nat) (total : ℚ)
    (base l : List PointsLedger) (rule : PointRule) : List PointsLedger :=
  if 0 < pyInt (total * rule.value) then
    l ++ [⟨uid, pyInt (total * rule.value), mkAccrualReason period rule.name total,
      none, latestBalanceL base uid + pyInt (total * rule.value)⟩]
  else l

/-- The rule loop for one user. -/
def applyRulesForUser (period : String) (rules : List PointRule) (uid : Nat)
    (total : ℚ) (base l : List PointsLedger) : List PointsLedger :=
  rules.foldl (accrueOne period uid total base) l

/-- The user loop of the batch application; `base` is the committed ledger
every balance query reads. -/
def applyTotals (period : String) (rules : List PointRule)
    (totals : List (Nat × ℚ)) (base l : List PointsLedger) : List PointsLedger :=
  totals.foldl (fun acc ut => applyRulesForUser period rules ut.1 ut.2 base acc) l

/-- `POST /admin/points/apply-rules` (`admin.py` lines 164-244).  The
`YYYY-MM` string is parsed by the web layer into the half-open day range
`[startD, endD)`, which the model receives directly; `period` is kept for the
reason strings.  Only the ledger is written; the committed pre-run ledger
`s.ledger` serves as the base all balance queries of the run read. -/
def apply_point_rules (s : DBState) (period : String) (startD endD : Nat) :
    Except ApplyError DBState :=
  if (activePerKgRules s.rules).isEmpty then .error .NoActiveRules
  else
    .ok { s with
      ledger := applyTotals period (activePerKgRules s.rules)
        (userTotals (periodRecords s.records startD endD)) s.ledger s.ledger }

attribute [local semireducible] Rat.add Rat.mul Rat.sub Rat.inv

/-- Running balance of a ledger fragment started at balance `b`: the
`balance_after` of the last entry, or `b` when the fragment is empty. -/
def lastBal (b : Int) : List PointsLedger → Int
  | [] => b
  | e :: rest => lastBal e.balance_after rest

/-- The additive snapshot recurrence from balance `b`:
`balance_after = previous balance + delta` entry by entry. -/
def balancedFromB : Int → List PointsLedger → Bool
  | _, [] => true
  | b, e :: rest => (e.balance_after == b + e.delta) && balancedFromB e.balance_after rest

/-- A user's sub-ledger satisfies the snapshot recurrence starting from 0. -/
def ledgerOK (l : List PointsLedger) (uid : Nat) : Prop :=
  balancedFromB 0 (l.filter (fun e => e.user_id == uid)) = true

instance (l : List PointsLedger) (uid : Nat) : Decidable (ledgerOK l uid) := by
  unfold ledgerOK; infer_instance

/-- The snapshot invariant of every user's ledger, prefix-sum form: at every
position of the user's sub-ledger, `balance_after` is the sum of all deltas up
to and including that entry. -/
def snapshotOK (l : List PointsLedger) (uid : Nat) : Prop :=
  ∀ pre e post, l.filter (fun x => x.user_id == uid) = pre ++ e :: post →
    e.balance_after = (pre.map (fun x => x.delta)).sum + e.delta

theorem lastBal_getLast (xs : List PointsLedger) :
    ∀ b, lastBal b xs = (match xs.getLast? with
      | none => b
      | some e => e.balance_after) := by
  induction xs with
  | nil => intro b; rfl
  | cons x xs ih =>
    intro b
    cases xs with
    | nil => rfl
    | cons y ys =>
      rw [List.getLast?_cons_cons]
      exact ih x.balance_after

theorem latestBalanceL_eq_lastBal (l : List PointsLedger) (uid : Nat) :
    latestBalanceL l uid = lastBal 0 (l.filter (fun e => e.user_id == uid)) := by
  rw [latestBalanceL, lastBal_getLast]

theorem lastBal_concat (xs : List PointsLedger) (b : Int) (e : PointsLedger) :
    lastBal b (xs ++ [e]) = e.balance_after := by
  induction xs generalizing b with
  | nil => rfl
  | cons x xs ih => exact ih x.balance_after

theorem filter_singleton_user (e : PointsLedger) (u : Nat) :
    (List.filter (fun x => x.user_id == u) [e]) = if e.user_id = u then [e] else [] := by
  by_cases h : e.user_id = u <;> simp [List.filter_cons, h]

theorem latestBalanceL_append (l : List PointsLedger) (e : PointsLedger) (u : Nat) :
    latestBalanceL (l ++ [e]) u =
      if e.user_id = u then e.balance_after else latestBalanceL l u := by
  by_cases h : e.user_id = u
  · rw [latestBalanceL_eq_lastBal, List.filter_append, if_pos h,
      filter_singleton_user, if_pos h, lastBal_concat]
  · rw [latestBalanceL_eq_lastBal, List.filter_append, if_neg h,
      filter_singleton_user, if_neg h, List.append_nil, latestBalanceL_eq_lastBal]

theorem balancedFromB_lastBal {xs : List PointsLedger} :
    ∀ {b : Int}, balancedFromB b xs = true →
      lastBal b xs = b + (xs.map (fun e => e.delta)).sum := by
  induction xs with
  | nil => intro b _; simp [lastBal]
  | cons x xs ih =>
    intro b h
    rw [balancedFromB, Bool.and_eq_true, beq_iff_eq] at h
    obtain ⟨h1, h2⟩ := h
    have hx := ih h2
    show lastBal x.balance_after xs = _
    rw [hx, h1, List.map_cons, List.sum_cons]
    ring

theorem balancedFromB_iff_splits (xs : List PointsLedger) :
    ∀ b, balancedFromB b xs = true ↔
      (∀ pre e post, xs = pre ++ e :: post →
        e.balance_after = b + (pre.map (fun x => x.delta)).sum + e.delta) := by
  induction xs with
  | nil =>
    intro b
    constructor
    · intro _ pre e post h
      exact absurd h (by simp)
    · intro _; rfl
  | cons x xs ih =>
    intro b
    constructor
    · intro h pre e post hsplit
      rw [balancedFromB, Bool.and_eq_true, beq_iff_eq] at h
      obtain ⟨h1, h2⟩ := h
      cases pre with
      | nil =>
        simp only [List.nil_append, List.cons.injEq] at hsplit
        obtain ⟨rfl, rfl⟩ := hsplit
        simp only [List.map_nil, List.sum_nil]
        omega
      | cons y pre' =>
        simp only [List.cons_append, List.cons.injEq] at hsplit
        obtain ⟨rfl, hsplit2⟩ := hsplit
        have hrec := (ih x.balance_after).mp h2 pre' e post hsplit2
        simp only [List.map_cons, List.sum_cons]
        omega
    · intro h
      rw [balancedFromB, Bool.and_eq_true, beq_iff_eq]
      constructor
      · simpa using h [] x xs rfl
      · refine (ih x.balance_after).mpr ?_
        intro pre e post hsplit
        have hx : x.balance_after = b + x.delta := by simpa using h [] x xs rfl
        have := h (x :: pre) e post (by rw [hsplit]; rfl)
        simp only [List.map_cons, List.sum_cons] at this
        rw [this, hx]
        ring

theorem ledgerOK_iff_snapshotOK (l : List PointsLedger) (u : Nat) :
    ledgerOK l u ↔ snapshotOK l u := by
  unfold ledgerOK snapshotOK
  rw [balancedFromB_iff_splits]
  constructor
  · intro h pre e post hs
    have := h pre e post hs
    omega
  · intro h pre e post hs
    have := h pre e post hs
    omega

theorem updateFirst_mem {p : α → Bool} {f : α → α} :
    ∀ {l : List α} {x : α}, x ∈ updateFirst p f l →
      x ∈ l ∨ ∃ a, l.find? p = some a ∧ x = f a := by
  intro l
  induction l with
  | nil => intro x hx; exact absurd hx (by simp [updateFirst])
  | cons y ys ih =>
    intro x hx
    rw [updateFirst] at hx
    by_cases hp : p y
    · rw [if_pos hp] at hx
      rcases List.mem_cons.mp hx with h | h
      · exact Or.inr ⟨y, by rw [List.find?_cons_of_pos _ hp], h⟩
      · exact Or.inl (List.mem_cons_of_mem _ h)
    · rw [if_neg hp] at hx
      rcases List.mem_cons.mp hx with h | h
      · exact Or.inl (h ▸ List.mem_cons_self _ _)
      · rcases ih h with h2 | ⟨a, ha, hfa⟩
        · exact Or.inl (List.mem_cons_of_mem _ h2)
        · refine Or.inr ⟨a, ?_, hfa⟩
          rw [List.find?_cons_of_neg _ hp]
          exact ha

theorem find?_updateFirst_same {p : α → Bool} {f : α → α} :
    ∀ {l : List α} {a : α}, l.find? p = some a → p (f a) = true →
      (updateFirst p f l).find? p = some (f a) := by
  intro l
  induction l with
  | nil => intro a ha _; simp at ha
  | cons y ys ih =>
    intro a ha hf
    by_cases hp : p y
    · rw [List.find?_cons_of_pos _ hp] at ha
      injection ha with ha
      subst ha
      rw [updateFirst, if_pos hp, List.find?_cons_of_pos _ hf]
    · rw [List.find?_cons_of_neg _ hp] at ha
      rw [updateFirst, if_neg hp, List.find?_cons_of_neg _ hp]
      exact ih ha hf

theorem find?_updateFirst_other {p q : α → Bool} {f : α → α}
    (hpq : ∀ x, p x = true → q x = false) (hfq : ∀ x, q (f x) = q x) :
    ∀ (l : List α), (updateFirst p f l).find? q = l.find? q := by
  intro l
  induction l with
  | nil => rfl
  | cons y ys ih =>
    by_cases hp : p y
    · rw [updateFirst, if_pos hp]
      have hqy : q y = false := hpq y hp
      have hqfy : q (f y) = false := by rw [hfq]; exact hqy
      rw [List.find?_cons_of_neg _ (by simp [hqfy]), List.find?_cons_of_neg _ (by simp [hqy])]
    · rw [updateFirst, if_neg hp]
      by_cases hq : q y
      · rw [List.find?_cons_of_pos _ hq, List.find?_cons_of_pos _ hq]
      · rw [List.find?_cons_of_neg _ hq, List.find?_cons_of_neg _ hq]
        exact ih

theorem find?_strengthen {p q : α → Bool} :
    ∀ {l : List α} {a : α}, l.find? p = some a → q a = true →
      l.find? (fun x => p x && q x) = some a := by
  intro l
  induction l with
  | nil => intro a ha _; simp at ha
  | cons y ys ih =>
    intro a ha hq
    by_cases hp : p y
    · rw [List.find?_cons_of_pos _ hp] at ha
      injection ha with ha
      subst ha
      rw [List.find?_cons_of_pos]
      simp [hp, hq]
    · rw [List.find?_cons_of_neg _ hp] at ha
      rw [List.find?_cons_of_neg]
      · exact ih ha hq
      · simp [hp]

theorem find?_of_nodup_key {key : α → Nat} {l : List α}
    (hN : (l.map key).Nodup) {a : α} (ha : a ∈ l) {q : α → Bool}
    (hqa : q a = true) (hq : ∀ x, q x = true → key x = key a) :
    l.find? q = some a := by
  induction l with
  | nil => exact absurd ha (by simp)
  | cons y ys ih =>
    rw [List.map_cons, List.nodup_cons] at hN
    rcases List.mem_cons.mp ha with h | h
    · subst h
      rw [List.find?_cons_of_pos _ hqa]
    · have hqy : q y = false := by
        by_contra hc
        have hy : key y = key a := hq y (by revert hc; cases q y <;> simp)
        exact hN.1 (hy ▸ List.mem_map_of_mem key h)
      rw [List.find?_cons_of_neg _ (by simp [hqy])]
      exact ih hN.2 h

theorem foldl_preserve {α β : Type _} {P : α → Prop} {f : α → β → α}
    (hf : ∀ a b, P a → P (f a b)) :
    ∀ (bs : List β) (a : α), P a → P (List.foldl f a bs) := by
  intro bs
  induction bs with
  | nil => intro a ha; exact ha
  | cons b bs ih => intro a ha; exact ih _ (hf a b ha)

/-- Batteries' computable `Rat.floor` agrees with Mathlib's `Int.floor`. -/
theorem ratFloor_eq_intFloor (q : ℚ) : q.floor = ⌊q⌋ := by
  rw [Rat.floor_def', Rat.floor_def]

theorem pyInt_pos_iff (q : ℚ) : 0 < pyInt q ↔ 0 < q.floor := by
  unfold pyInt
  by_cases h : 0 ≤ q
  · rw [if_pos h]
  · rw [if_neg h]
    push_neg at h
    have h1 : ¬ 0 < q.floor := by
      intro hc
      have : (1 : ℤ) ≤ Rat.floor q := hc
      rw [Rat.le_floor] at this
      push_cast at this
      linarith
    have h2 : 0 ≤ Rat.floor (-q) := by
      rw [Rat.le_floor]
      push_cast
      linarith
    constructor
    · intro hc; omega
    · intro hc; exact absurd hc h1

theorem pyInt_eq_floor_of_pos {q : ℚ} (h : 0 < q.floor) : pyInt q = q.floor := by
  have hq : 0 ≤ q := by
    have : (1 : ℤ) ≤ Rat.floor q := h
    rw [Rat.le_floor] at this
    push_cast at this
    linarith
  rw [pyInt, if_pos hq]

theorem redeemCheckE_ok_elim {s : DBState} {uid rid : Nat} {p : RedeemPlan}
    (h : redeemCheckE s uid rid = .ok p) :
    findActiveReward s rid = some p.reward ∧ 0 < p.reward.stock ∧
      p.balance = s.latestBalance uid ∧ p.reward.points_required ≤ p.balance := by
  unfold redeemCheckE at h
  split at h
  · exact absurd h (by simp)
  · rename_i reward heq
    split at h
    · exact absurd h (by simp)
    · rename_i hstock
      split at h
      · exact absurd h (by simp)
      · rename_i hbal
        injection h with h
        subst h
        refine ⟨heq, ?_, rfl, ?_⟩ <;> dsimp only <;> omega

theorem redeemCheckE_ok_intro {s : DBState} {uid rid : Nat} {reward : Reward}
    (hfind : findActiveReward s rid = some reward) (hstock : 0 < reward.stock)
    (hbal : reward.points_required ≤ s.latestBalance uid) :
    redeemCheckE s uid rid = .ok ⟨reward, s.latestBalance uid⟩ := by
  unfold redeemCheckE
  rw [hfind]
  have h1 : ¬ reward.stock ≤ 0 := by omega
  have h2 : ¬ s.latestBalance uid < reward.points_required := by omega
  simp only [h1, h2, if_false]

theorem exchange_reward_ok {s : DBState} {uid rid : Nat} {reward : Reward}
    (hfind : findActiveReward s rid = some reward) (hstock : 0 < reward.stock)
    (hbal : reward.points_required ≤ s.latestBalance uid) :
    exchange_reward s uid rid =
      (.ok ⟨s.nextRedemptionId, uid, reward.id, reward.points_required, .pending⟩,
        { s with
          ledger := s.ledger ++
            [⟨uid, -reward.points_required, "景品交換: " ++ reward.title,
              some s.nextRedemptionId, s.latestBalance uid - reward.points_required⟩]
          redemptions := s.redemptions ++
            [⟨s.nextRedemptionId, uid, reward.id, reward.points_required, .pending⟩]
          rewards := updateFirst (fun r => r.id == reward.id)
            (fun r => { r with stock := reward.stock - 1 }) s.rewards
          nextRedemptionId := s.nextRedemptionId + 1 }) := by
  unfold exchange_reward
  rw [redeemCheckE_ok_intro hfind hstock hbal]
  rfl

theorem exchange_reward_error_state {s : DBState} {uid rid : Nat} {e : RedeemError}
    (h : (exchange_reward s uid rid).1 = .error e) :
    (exchange_reward s uid rid).2 = s := by
  unfold exchange_reward at h ⊢
  cases hc : redeemCheckE s uid rid with
  | error x => rfl
  | ok p => rw [hc] at h; simp at h

theorem redeem_product_ok {s : DBState} {uid pid : Nat} {product : Reward}
    (hfind : findMobileProduct s pid = some product)
    (hbal : product.points_required ≤ s.latestBalance uid) :
    redeem_product s uid pid =
      (.ok ⟨s.nextRedemptionId, uid, product.id, product.points_required, .approved⟩,
        { s with
          ledger := s.ledger ++
            [⟨uid, -product.points_required, "商品交換: " ++ product.title,
              some s.nextRedemptionId, s.latestBalance uid - product.points_required⟩]
          redemptions := s.redemptions ++
            [⟨s.nextRedemptionId, uid, product.id, product.points_required, .approved⟩]
          rewards := updateFirst (fun r => r.id == product.id)
            (fun r => { r with stock := product.stock - 1 }) s.rewards
          nextRedemptionId := s.nextRedemptionId + 1 }) := by
  unfold redeem_product
  rw [hfind]
  have h2 : ¬ s.latestBalance uid < product.points_required := by omega
  simp only [h2, if_false]

theorem redeem_product_error_state {s : DBState} {uid pid : Nat} {e : RedeemError}
    (h : (redeem_product s uid pid).1 = .error e) :
    (redeem_product s uid pid).2 = s := by
  unfold redeem_product at h ⊢
  cases hc : findMobileProduct s pid with
  | none => rfl
  | some product =>
    rw [hc] at h
    dsimp only at h ⊢
    by_cases hb : s.latestBalance uid < product.points_required
    · rw [if_pos hb]
    · rw [if_neg hb] at h; simp at h

/-- Observable content of a ledger entry: owner, delta, reason. -/
def projEntry (e : PointsLedger) : Nat × Int × String :=
  (e.user_id, e.delta, e.reason)

/-- The accrual entries the spec prescribes for one user: one per rule whose
`floor(total_kg * value)` is positive, carrying that delta and the reason
embedding period, rule name and total kg. -/
def perUserSchedule (period : String) (rules : List PointRule) (uid : Nat)
    (total : ℚ) : List (Nat × Int × String) :=
  rules.filterMap (fun rule =>
    if 0 < (total * rule.value).floor then
      some (uid, (total * rule.value).floor, mkAccrualReason period rule.name total)
    else none)

/-- The accrual entries prescribed for all users of the period, in grouping
order. -/
def accrualSchedule (period : String) (rules : List PointRule)
    (totals : List (Nat × ℚ)) : List (Nat × Int × String) :=
  (totals.map (fun ut => perUserSchedule period rules ut.1 ut.2)).join

/-- The total points the rules award to a user with period total `total`. -/
def awardOf (rules : List PointRule) (total : ℚ) : Int :=
  (rules.map (fun rule =>
    if 0 < (total * rule.value).floor then (total * rule.value).floor else 0)).sum

/-- The last positive award among the active rules, in rule order: the delta
of the final accrual entry a user receives in one run; `none` when no rule
awards positive points. -/
def lastAward? (rules : List PointRule) (total : ℚ) : Option Int :=
  ((rules.map (fun rule => (total * rule.value).floor)).filter
    (fun p => decide (0 < p))).getLast?

theorem getLast?_cons_none {α : Type _} {a : α} {l : List α}
    (h : l.getLast? = none) : (a :: l).getLast? = some a := by
  cases l with
  | nil => rfl
  | cons x xs => exact absurd h (by simp)

theorem getLast?_cons_some {α : Type _} {a b : α} {l : List α}
    (h : l.getLast? = some b) : (a :: l).getLast? = some b := by
  cases l with
  | nil => exact absurd h (by simp)
  | cons x xs =>
    rw [List.getLast?_cons_cons]
    exact h

theorem applyRulesForUser_ext (period : String) (uid : Nat) (total : ℚ)
    (base : List PointsLedger) :
    ∀ (rules : List PointRule) (l : List PointsLedger), ∃ ext : List PointsLedger,
      applyRulesForUser period rules uid total base l = l ++ ext ∧
      ext.map projEntry = perUserSchedule period rules uid total ∧
      ∀ e ∈ ext, e.user_id = uid := by
  intro rules
  induction rules with
  | nil =>
    intro l
    exact ⟨[], by simp [applyRulesForUser], by simp [perUserSchedule], by simp⟩
  | cons rule rules ih =>
    intro l
    have hfold : applyRulesForUser period (rule :: rules) uid total base l =
        applyRulesForUser period rules uid total base
          (accrueOne period uid total base l rule) := rfl
    by_cases hp : 0 < pyInt (total * rule.value)
    · have hacc : accrueOne period uid total base l rule =
          l ++ [⟨uid, pyInt (total * rule.value),
            mkAccrualReason period rule.name total, none,
            latestBalanceL base uid + pyInt (total * rule.value)⟩] := by
        unfold accrueOne
        rw [if_pos hp]
      obtain ⟨ext, h1, h2, h3⟩ := ih (accrueOne period uid total base l rule)
      refine ⟨⟨uid, pyInt (total * rule.value),
        mkAccrualReason period rule.name total, none,
        latestBalanceL base uid + pyInt (total * rule.value)⟩ :: ext, ?_, ?_, ?_⟩
      · rw [hfold, h1, hacc, List.append_assoc]
        rfl
      · have hpos : 0 < (total * rule.value).floor := (pyInt_pos_iff _).mp hp
        rw [List.map_cons, h2]
        unfold perUserSchedule
        rw [List.filterMap_cons, if_pos hpos]
        have hd : pyInt (total * rule.value) = (total * rule.value).floor :=
          pyInt_eq_floor_of_pos hpos
        rw [projEntry, hd]
      · intro e he
        rcases List.mem_cons.mp he with h | h
        · rw [h]
        · exact h3 e h
    · have hacc : accrueOne period uid total base l rule = l := by
        unfold accrueOne
        rw [if_neg hp]
      obtain ⟨ext, h1, h2, h3⟩ := ih l
      refine ⟨ext, ?_, ?_, h3⟩
      · rw [hfold, hacc, h1]
      · have hpos : ¬ 0 < (total * rule.value).floor := fun hc =>
          hp ((pyInt_pos_iff _).mpr hc)
        rw [h2]
        unfold perUserSchedule
        rw [List.filterMap_cons, if_neg hpos]

theorem applyRulesForUser_latest (period : String) (uid : Nat) (total : ℚ)
    (base : List PointsLedger) :
    ∀ (rules : List PointRule) (l : List PointsLedger) (u : Nat),
      latestBalanceL (applyRulesForUser period rules uid total base l) u =
        if u = uid then
          (match lastAward? rules total with
            | none => latestBalanceL l u
            | some p => latestBalanceL base uid + p)
        else latestBalanceL l u := by
  intro rules
  induction rules with
  | nil =>
    intro l u
    by_cases hu : u = uid
    · rw [if_pos hu]
      rfl
    · rw [if_neg hu]
      rfl
  | cons rule rules ih =>
    intro l u
    have hfold : applyRulesForUser period (rule :: rules) uid total base l =
        applyRulesForUser period rules uid total base
          (accrueOne period uid total base l rule) := rfl
    rw [hfold, ih]
    by_cases hp : 0 < pyInt (total * rule.value)
    · have hpos : 0 < (total * rule.value).floor := (pyInt_pos_iff _).mp hp
      have hd : pyInt (total * rule.value) = (total * rule.value).floor :=
        pyInt_eq_floor_of_pos hpos
      have hacc : accrueOne period uid total base l rule =
          l ++ [⟨uid, pyInt (total * rule.value),
            mkAccrualReason period rule.name total, none,
            latestBalanceL base uid + pyInt (total * rule.value)⟩] := by
        unfold accrueOne
        rw [if_pos hp]
      by_cases hu : u = uid
      · rw [if_pos hu, if_pos hu]
        cases hla : lastAward? rules total with
        | none =>
          have h2 : lastAward? (rule :: rules) total =
              some ((total * rule.value).floor) := by
            unfold lastAward?
            rw [List.map_cons, List.filter_cons_of_pos (by simp [hpos])]
            exact getLast?_cons_none hla
          rw [h2, hacc, latestBalanceL_append, if_pos hu.symm, hd]
        | some p =>
          have h2 : lastAward? (rule :: rules) total = some p := by
            unfold lastAward?
            rw [List.map_cons, List.filter_cons_of_pos (by simp [hpos])]
            exact getLast?_cons_some hla
          rw [h2]
      · rw [if_neg hu, if_neg hu]
        rw [hacc, latestBalanceL_append, if_neg (fun hh => hu hh.symm)]
    · have hpos : ¬ 0 < (total * rule.value).floor := fun hc =>
        hp ((pyInt_pos_iff _).mpr hc)
      have hacc : accrueOne period uid total base l rule = l := by
        unfold accrueOne
        rw [if_neg hp]
      have hlast : lastAward? (rule :: rules) total = lastAward? rules total := by
        unfold lastAward?
        rw [List.map_cons, List.filter_cons_of_neg (by simp [hpos])]
      rw [hlast, hacc]

theorem applyTotals_ext (period : String) (rules : List PointRule)
    (base : List PointsLedger) :
    ∀ (totals : List (Nat × ℚ)) (l : List PointsLedger), ∃ ext : List PointsLedger,
      applyTotals period rules totals base l = l ++ ext ∧
      ext.map projEntry = accrualSchedule period rules totals := by
  intro totals
  induction totals with
  | nil =>
    intro l
    exact ⟨[], by simp [applyTotals], by simp [accrualSchedule]⟩
  | cons ut totals ih =>
    intro l
    have hfold : applyTotals period rules (ut :: totals) base l =
        applyTotals period rules totals base
          (applyRulesForUser period rules ut.1 ut.2 base l) := rfl
    obtain ⟨ext1, h1, h2, _⟩ := applyRulesForUser_ext period ut.1 ut.2 base rules l
    obtain ⟨ext2, g1, g2⟩ := ih (l ++ ext1)
    refine ⟨ext1 ++ ext2, ?_, ?_⟩
    · rw [hfold, h1, g1, List.append_assoc]
    · unfold accrualSchedule
      rw [List.map_cons, List.join, List.map_append, h2, g2]
      rfl

theorem applyTotals_latest_notin (period : String) (rules : List PointRule)
    (base : List PointsLedger) (u : Nat) :
    ∀ (totals : List (Nat × ℚ)) (l : List PointsLedger),
      totals.filter (fun q => q.1 == u) = [] →
      latestBalanceL (applyTotals period rules totals base l) u =
        latestBalanceL l u := by
  intro totals
  induction totals with
  | nil => intro l _; rfl
  | cons ut totals ih =>
    intro l hf
    by_cases hne : (ut.1 == u) = true
    · rw [List.filter_cons_of_pos (by exact hne)] at hf
      exact absurd hf (by simp)
    · rw [List.filter_cons_of_neg (by exact hne)] at hf
      have hfold : applyTotals period rules (ut :: totals) base l =
          applyTotals period rules totals base
            (applyRulesForUser period rules ut.1 ut.2 base l) := rfl
      rw [hfold, ih _ hf, applyRulesForUser_latest,
        if_neg (show ¬ u = ut.1 from fun hh => hne (by simp [hh]))]

theorem applyTotals_latest (period : String) (rules : List PointRule)
    (base : List PointsLedger) (u : Nat) (t : ℚ) :
    ∀ (totals : List (Nat × ℚ)) (l : List PointsLedger),
      totals.filter (fun q => q.1 == u) = [(u, t)] →
      latestBalanceL (applyTotals period rules totals base l) u =
        (match lastAward? rules t with
          | none => latestBalanceL l u
          | some p => latestBalanceL base u + p) := by
  intro totals
  induction totals with
  | nil => intro l hf; exact absurd hf (by simp)
  | cons ut totals ih =>
    intro l hf
    have hfold : applyTotals period rules (ut :: totals) base l =
        applyTotals period rules totals base
          (applyRulesForUser period rules ut.1 ut.2 base l) := rfl
    by_cases hne : (ut.1 == u) = true
    · rw [List.filter_cons_of_pos (by exact hne)] at hf
      injection hf with hut hrest
      rw [hfold, applyTotals_latest_notin period rules base u totals _ hrest,
        applyRulesForUser_latest, hut]
      dsimp only
      rw [if_pos rfl]
    · rw [List.filter_cons_of_neg (by exact hne)] at hf
      rw [hfold, ih _ hf]
      cases hla : lastAward? rules t with
      | none =>
        rw [applyRulesForUser_latest,
          if_neg (show ¬ u = ut.1 from fun hh => hne (by simp [hh]))]
      | some p => rfl

theorem apply_point_rules_ok_elim {s : DBState} {period : String}
    {startD endD : Nat} {s' : DBState}
    (h : apply_point_rules s period startD endD = .ok s') :
    s' = { s with
      ledger := applyTotals period (activePerKgRules s.rules)
        (userTotals (periodRecords s.records startD endD)) s.ledger s.ledger } := by
  unfold apply_point_rules at h
  split at h
  · exact absurd h (by simp)
  · injection h with h
    exact h.symm

theorem sum_delta_split (l : List PointsLedger) :
    (l.map (fun e => e.delta)).sum =
      ((l.filter (fun e => decide (0 < e.delta))).map (fun e => e.delta)).sum -
      ((l.filter (fun e => decide (e.delta < 0))).map (fun e => -e.delta)).sum := by
  induction l with
  | nil => simp
  | cons e l ih =>
    rcases lt_trichotomy e.delta 0 with h | h | h
    · rw [List.map_cons, List.sum_cons,
        List.filter_cons_of_neg (by simp; omega),
        List.filter_cons_of_pos (by simp [h]),
        List.map_cons, List.sum_cons, ih]
      ring
    · rw [List.map_cons, List.sum_cons,
        List.filter_cons_of_neg (by simp [h]),
        List.filter_cons_of_neg (by simp [h]), ih, h]
      ring
    · rw [List.map_cons, List.sum_cons,
        List.filter_cons_of_pos (by simp [h]),
        List.filter_cons_of_neg (by simp; omega),
        List.map_cons, List.sum_cons, ih]
      ring

/- Concrete demonstration states used by the witnesses and counterexamples. -/

/-- Rules A (10 pt/kg) and B (1 pt/kg) both active; user 7 reduced 2 kg in
the period. -/
def twoRulesS : DBState :=
  ⟨[], [], [], [⟨1, "ルールA", .per_kg, 10, true⟩, ⟨2, "ルールB", .per_kg, 1, true⟩],
    [⟨7, 5, 2⟩], 1, 1⟩

/-- `twoRulesS` after one batch accrual: the second entry's `balance_after`
is computed from the pre-run balance 0, not from the first entry. -/
def twoRulesS1 : DBState :=
  { twoRulesS with ledger :=
      [⟨7, 20, mkAccrualReason "2025-09" "ルールA" 2, none, 20⟩,
       ⟨7, 2, mkAccrualReason "2025-09" "ルールB" 2, none, 2⟩] }

/-- `twoRulesS1` after re-running the same period. -/
def twoRulesS2 : DBState :=
  { twoRulesS1 with ledger := twoRulesS1.ledger ++
      [⟨7, 20, mkAccrualReason "2025-09" "ルールA" 2, none, 22⟩,
       ⟨7, 2, mkAccrualReason "2025-09" "ルールB" 2, none, 4⟩] }

/-- A user with no points facing a 100-point reward. -/
def c3S : DBState :=
  ⟨[], [⟨1, "コーヒー", none, "drink", 3, 100, true⟩], [], [], [], 1, 2⟩

/-- A single ledger entry whose snapshot (999) deliberately disagrees with the
sum of deltas (5): the balance endpoints must report the snapshot. -/
def c5S : DBState :=
  ⟨[⟨7, 5, "移行残高", none, 999⟩], [], [], [], [], 1, 1⟩

/-- C2: the additive snapshot invariant is NOT preserved by every
balance-mutating operation.  The session runs with `autoflush=False`
(`app/db/database.py` line 58) and `apply_point_rules` never flushes before
its mid-loop balance query, so when two active `per_kg` rules both award
positive points to one user in one run, the second entry's `balance_after`
is computed from the pre-run balance (here 2 = 0 + 2 instead of
22 = 20 + 2), breaking both the recurrence form (`ledgerOK`) and the
prefix-sum form (`snapshotOK`) of the invariant the claim asserts — starting
from an empty, trivially-balanced ledger. -/
theorem c2_snapshot_invariant_broken_by_accrual :
    twoRulesS.ledger = [] ∧
    apply_point_rules twoRulesS "2025-09" 0 31 = .ok twoRulesS1 ∧
    twoRulesS1.ledger.map (fun e => (e.user_id, e.delta, e.balance_after)) =
      [(7, 20, 20), (7, 2, 2)] ∧
    ¬ ledgerOK twoRulesS1.ledger 7 ∧
    ¬ snapshotOK twoRulesS1.ledger 7 := by
  refine ⟨rfl, by decide, by decide, by decide, ?_⟩
  intro hs
  exact absurd ((ledgerOK_iff_snapshotOK _ _).mpr hs) (by decide)

/-- C3: whenever either redemption endpoint fails with any error kind, the
returned state is exactly the input state: no ledger entry, no stock change,
no redemption row. -/
theorem c3_failure_no_mutation (s : DBState) (uid rid : Nat) (e e' : RedeemError) :
    ((exchange_reward s uid rid).1 = .error e → (exchange_reward s uid rid).2 = s) ∧
    ((redeem_product s uid rid).1 = .error e' → (redeem_product s uid rid).2 = s) :=
  ⟨fun h => exchange_reward_error_state h, fun h => redeem_product_error_state h⟩

/-- Witness for C3: the second-redemption scenario (balance 0 < 100) fails
with InsufficientPoints on the exchange channel and leaves the state intact,
and likewise on the mobile channel. -/
theorem c3_failure_no_mutation_witness :
    (exchange_reward c3S 7 1).1 = .error .InsufficientPoints ∧
    (exchange_reward c3S 7 1).2 = c3S ∧
    (redeem_product c3S 7 1).1 = .error .InsufficientPoints ∧
    (redeem_product c3S 7 1).2 = c3S :=
  ⟨by decide,
    (c3_failure_no_mutation c3S 7 1 .InsufficientPoints .InsufficientPoints).1 (by decide),
    by decide,
    (c3_failure_no_mutation c3S 7 1 .InsufficientPoints .InsufficientPoints).2 (by decide)⟩

/-- C5: the balance read by both balance endpoints is 0 for a user with no
ledger entries, and otherwise the `balance_after` snapshot of the most recent
entry — never a recomputed sum of deltas. -/
theorem c5_latest_balance (s : DBState) (uid : Nat) :
    (s.ledger.filter (fun e => e.user_id == uid) = [] →
      get_points_balance s uid = 0 ∧ (get_my_points s uid).current_balance = 0 ∧
      s.latestBalance uid = 0) ∧
    (∀ l' e, s.ledger.filter (fun e => e.user_id == uid) = l' ++ [e] →
      get_points_balance s uid = e.balance_after ∧
      (get_my_points s uid).current_balance = e.balance_after ∧
      s.latestBalance uid = e.balance_after) := by
  constructor
  · intro h
    refine ⟨?_, ?_, ?_⟩
    · unfold get_points_balance
      rw [h]
      rfl
    · unfold get_my_points
      rw [h]
      rfl
    · show latestBalanceL s.ledger uid = 0
      unfold latestBalanceL
      rw [h]
      rfl
  · intro l' e h
    refine ⟨?_, ?_, ?_⟩
    · unfold get_points_balance
      rw [h, List.getLast?_concat]
    · unfold get_my_points
      rw [h, List.getLast?_concat]
    · show latestBalanceL s.ledger uid = e.balance_after
      unfold latestBalanceL
      rw [h, List.getLast?_concat]

/-- Witness for C5: user 9 has no entries (balance 0); user 7's only entry
has `delta = 5` but snapshot `balance_after = 999`, and the endpoints report
999, the snapshot, not the recomputed sum 5. -/
theorem c5_latest_balance_witness :
    (c5S.ledger.filter (fun e => e.user_id == 9) = []) ∧
    get_points_balance c5S 9 = 0 ∧
    (c5S.ledger.filter (fun e => e.user_id == 7) = [] ++ [⟨7, 5, "移行残高", none, 999⟩]) ∧
    get_points_balance c5S 7 = 999 ∧
    (get_my_points c5S 7).current_balance = 999 :=
  ⟨by decide,
    ((c5_latest_balance c5S 9).1 (by decide)).1,
    by decide,
    ((c5_latest_balance c5S 7).2 [] ⟨7, 5, "移行残高", none, 999⟩ (by decide)).1,
    ((c5_latest_balance c5S 7).2 [] ⟨7, 5, "移行残高", none, 999⟩ (by decide)).2.1⟩

/-- C10: for a user whose ledger satisfies the snapshot invariant, the points
summary satisfies `current_balance = total_earned - total_spent`, and a user
with no entries gets the all-zero summary. -/
theorem c10_summary_consistency (s : DBState) (uid : Nat)
    (h : ledgerOK s.ledger uid) :
    (get_my_points s uid).current_balance =
      (get_my_points s uid).total_earned - (get_my_points s uid).total_spent ∧
    (s.ledger.filter (fun e => e.user_id == uid) = [] →
      get_my_points s uid = ⟨0, 0, 0⟩) := by
  constructor
  · unfold get_my_points
    show (match (s.ledger.filter (fun e => e.user_id == uid)).getLast? with
      | none => (0 : Int)
      | some e => e.balance_after) = _
    rw [← lastBal_getLast, balancedFromB_lastBal h, zero_add, sum_delta_split]
  · intro hnil
    unfold get_my_points
    rw [hnil]
    rfl

/-- A user with entries `[+500 (bal 500), -200 (bal 300)]`. -/
def c10S : DBState :=
  ⟨[⟨7, 500, "付与", none, 500⟩, ⟨7, -200, "交換", none, 300⟩], [], [], [], [], 1, 1⟩

/-- Witness for C10 on a two-entry ledger (earn 500, spend 200). -/
theorem c10_summary_consistency_witness :
    ledgerOK c10S.ledger 7 ∧
    (get_my_points c10S 7).current_balance =
      (get_my_points c10S 7).total_earned - (get_my_points c10S 7).total_spent :=
  ⟨by decide, (c10_summary_consistency c10S 7 (by decide)).1⟩

/-- Scenario 3 of the spec: reward `stock=3, points_required=100`, user
balance 100. -/
def c1Reward : Reward := ⟨1, "コーヒー", none, "drink", 3, 100, true⟩

/-- State for the successful-redemption witness. -/
def c1S : DBState := ⟨[⟨7, 100, "付与", none, 100⟩], [c1Reward], [], [], [], 1, 2⟩

/-- C1: when the reward is found active with positive stock and the user's
latest balance covers `points_required`, both redemption channels succeed,
appending exactly one Redemption (capturing `points_spent` at call time),
exactly one ledger entry with `delta = -points_required`,
`reference_id` = the new redemption's id and `balance_after` = previous
balance minus the cost, and decrementing that reward's stock by exactly 1. -/
theorem c1_redeem_success (s : DBState) (uid rid : Nat) (reward : Reward)
    (hN : (s.rewards.map (fun r => r.id)).Nodup)
    (hfind : findActiveReward s rid = some reward)
    (hstock : 0 < reward.stock)
    (hbal : reward.points_required ≤ s.latestBalance uid) :
    ((exchange_reward s uid rid).1 =
      .ok ⟨s.nextRedemptionId, uid, reward.id, reward.points_required, .pending⟩ ∧
     (exchange_reward s uid rid).2.redemptions = s.redemptions ++
      [⟨s.nextRedemptionId, uid, reward.id, reward.points_required, .pending⟩] ∧
     (exchange_reward s uid rid).2.ledger = s.ledger ++
      [⟨uid, -reward.points_required, "景品交換: " ++ reward.title,
        some s.nextRedemptionId, s.latestBalance uid - reward.points_required⟩] ∧
     (exchange_reward s uid rid).2.rewards.find? (fun r => r.id == reward.id) =
      some { reward with stock := reward.stock - 1 }) ∧
    ((redeem_product s uid rid).1 =
      .ok ⟨s.nextRedemptionId, uid, reward.id, reward.points_required, .approved⟩ ∧
     (redeem_product s uid rid).2.redemptions = s.redemptions ++
      [⟨s.nextRedemptionId, uid, reward.id, reward.points_required, .approved⟩] ∧
     (redeem_product s uid rid).2.ledger = s.ledger ++
      [⟨uid, -reward.points_required, "商品交換: " ++ reward.title,
        some s.nextRedemptionId, s.latestBalance uid - reward.points_required⟩] ∧
     (redeem_product s uid rid).2.rewards.find? (fun r => r.id == reward.id) =
      some { reward with stock := reward.stock - 1 }) := by
  have hmem : reward ∈ s.rewards := List.mem_of_find?_eq_some hfind
  have hfid : s.rewards.find? (fun r => r.id == reward.id) = some reward :=
    find?_of_nodup_key hN hmem (by simp) (fun x hx => by simpa using hx)
  have hfupd : (updateFirst (fun r => r.id == reward.id)
      (fun r => { r with stock := reward.stock - 1 }) s.rewards).find?
        (fun r => r.id == reward.id) =
      some { reward with stock := reward.stock - 1 } :=
    find?_updateFirst_same hfid (by simp)
  have hfindm : findMobileProduct s rid = some reward := by
    unfold findMobileProduct
    exact find?_strengthen hfind (decide_eq_true hstock)
  constructor
  · rw [exchange_reward_ok hfind hstock hbal]
    exact ⟨rfl, rfl, rfl, hfupd⟩
  · rw [redeem_product_ok hfindm hbal]
    exact ⟨rfl, rfl, rfl, hfupd⟩

/-- Witness for C1 at the spec's scenario-3 state. -/
theorem c1_redeem_success_witness :
    (c1S.rewards.map (fun r => r.id)).Nodup ∧
    findActiveReward c1S 1 = some c1Reward ∧
    0 < c1Reward.stock ∧
    c1Reward.points_required ≤ c1S.latestBalance 7 ∧
    (exchange_reward c1S 7 1).1 = .ok ⟨1, 7, 1, 100, .pending⟩ :=
  ⟨by decide, by decide, by decide, by decide,
    (c1_redeem_success c1S 7 1 c1Reward (by decide) (by decide) (by decide)
      (by decide)).1.1⟩

/-- Every catalog row with the given id is out of stock. -/
def allOutOfStock (s : DBState) (rid : Nat) : Prop :=
  ∀ r ∈ s.rewards, r.id = rid → r.stock ≤ 0

instance (s : DBState) (rid : Nat) : Decidable (allOutOfStock s rid) := by
  unfold allOutOfStock; infer_instance

/-- An active zero-stock reward faced by a user with 1000 points. -/
def c4Reward : Reward := ⟨1, "売切れ景品", none, "goods", 0, 100, true⟩

/-- State for the out-of-stock behaviour. -/
def c4S : DBState := ⟨[⟨7, 1000, "付与", none, 1000⟩], [c4Reward], [], [], [], 1, 2⟩

/-- C4 counterexample: with stock 0 and ample balance, the mobile channel
fails with `NotFound` (its lookup filters `stock > 0`), not with the
`OutOfStock` error kind the claim requires of either channel. -/
theorem c4_out_of_stock_counterexample :
    findActiveReward c4S 1 = some c4Reward ∧
    c4Reward.stock = 0 ∧
    c4S.latestBalance 7 = 1000 ∧
    (redeem_product c4S 7 1).1 = .error .NotFound ∧
    ¬ (redeem_product c4S 7 1).1 = .error .OutOfStock := by decide

/-- C4 (amended): when every row with the requested id is out of stock and an
active row exists, the exchange channel fails with `OutOfStock` regardless of
balance, while the mobile channel fails with `NotFound` because its lookup
already filters `stock > 0`. -/
theorem c4_out_of_stock_amended (s : DBState) (uid rid : Nat) (reward : Reward)
    (hfind : findActiveReward s rid = some reward)
    (hall : allOutOfStock s rid) :
    (exchange_reward s uid rid).1 = .error .OutOfStock ∧
    (redeem_product s uid rid).1 = .error .NotFound := by
  have hmem : reward ∈ s.rewards := List.mem_of_find?_eq_some hfind
  have hpred := List.find?_some hfind
  rw [Bool.and_eq_true, beq_iff_eq] at hpred
  have hstock : reward.stock ≤ 0 := hall reward hmem hpred.1
  constructor
  · have hchk : redeemCheckE s uid rid = .error .OutOfStock := by
      unfold redeemCheckE
      rw [hfind]
      dsimp only
      rw [if_pos hstock]
    unfold exchange_reward
    rw [hchk]
  · have hnone : findMobileProduct s rid = none := by
      unfold findMobileProduct
      rw [List.find?_eq_none]
      intro r hr
      simp only [Bool.and_eq_true, beq_iff_eq, decide_eq_true_eq, not_and]
      rintro ⟨hid, _⟩ hst
      have := hall r hr hid
      omega
    unfold redeem_product
    rw [hnone]

/-- Witness for C4's amended statement at the concrete zero-stock state. -/
theorem c4_out_of_stock_amended_witness :
    findActiveReward c4S 1 = some c4Reward ∧
    allOutOfStock c4S 1 ∧
    (exchange_reward c4S 7 1).1 = .error .OutOfStock ∧
    (redeem_product c4S 7 1).1 = .error .NotFound :=
  ⟨by decide, by decide,
    (c4_out_of_stock_amended c4S 7 1 c4Reward (by decide) (by decide)).1,
    (c4_out_of_stock_amended c4S 7 1 c4Reward (by decide) (by decide)).2⟩

/-- C6: a successful batch accrual appends exactly the scheduled entries: for
each (user, rule) pair taken in grouping order, one entry when
`floor(total_kg * value) > 0`, carrying that delta and the reason embedding
period, rule name and total kg — and no entry when the floor is not
positive. -/
theorem c6_accrual_schedule (s : DBState) (period : String) (startD endD : Nat)
    (s' : DBState) (h : apply_point_rules s period startD endD = .ok s') :
    (s'.ledger.drop s.ledger.length).map projEntry =
      accrualSchedule period (activePerKgRules s.rules)
        (userTotals (periodRecords s.records startD endD)) := by
  obtain ⟨ext, h1, h2⟩ := applyTotals_ext period (activePerKgRules s.rules)
    s.ledger (userTotals (periodRecords s.records startD endD)) s.ledger
  rw [apply_point_rules_ok_elim h]
  dsimp only
  rw [h1, List.drop_left, h2]

/-- Accrual demo: rule `per_kg, value 10`, records for user 7 summing to
3.7 kg in the period. -/
def c9S : DBState :=
  ⟨[], [], [], [⟨1, "基本ルール", .per_kg, 10, true⟩],
    [⟨7, 5, 2⟩, ⟨7, 12, 17/10⟩], 1, 1⟩

/-- `c9S` after one batch application: one accrual entry of 37 points. -/
def c9S1 : DBState :=
  { c9S with ledger :=
      [⟨7, 37, mkAccrualReason "2025-09" "基本ルール" (37/10), none, 37⟩] }

/-- `c9S1` after a second batch application of the same period. -/
def c9S2 : DBState :=
  { c9S1 with ledger := c9S1.ledger ++
      [⟨7, 37, mkAccrualReason "2025-09" "基本ルール" (37/10), none, 74⟩] }

/-- Witness for C6: `floor(3.7 * 10) = 37` points accrue to user 7. -/
theorem c6_accrual_schedule_witness :
    apply_point_rules c9S "2025-09" 0 31 = .ok c9S1 ∧
    ((c9S1.ledger.drop c9S.ledger.length).map projEntry =
      accrualSchedule "2025-09" (activePerKgRules c9S.rules)
        (userTotals (periodRecords c9S.records 0 31))) ∧
    (c9S1.ledger.drop c9S.ledger.length).map projEntry =
      [(7, 37, mkAccrualReason "2025-09" "基本ルール" (37/10))] :=
  ⟨by decide,
    c6_accrual_schedule c9S "2025-09" 0 31 c9S1 (by decide),
    by decide⟩

/-- Every reward row has nonnegative stock. -/
def rewardsNonneg (s : DBState) : Prop :=
  ∀ r ∈ s.rewards, 0 ≤ r.stock

instance (s : DBState) : Decidable (rewardsNonneg s) := by
  unfold rewardsNonneg; infer_instance

/-- A reward with healthy stock 5, about to be updated to a negative stock. -/
def c7S : DBState := ⟨[], [⟨1, "ペン", none, "stationery", 5, 100, true⟩], [], [], [], 1, 2⟩

/-- An admin update setting `stock = -3`; no schema validation rejects it. -/
def c7U : RewardUpdate := ⟨none, none, none, some (-3), none, none⟩

/-- C7 counterexample: the admin update and create endpoints accept negative
stock (the Pydantic schemas carry no bound), so `stock >= 0` is not preserved
by every reward-mutating operation. -/
theorem c7_stock_nonneg_counterexample :
    rewardsNonneg c7S ∧
    ¬ rewardsNonneg (update_reward c7S 1 c7U).2 ∧
    ((update_reward c7S 1 c7U).2.rewards.map (fun r => r.stock)) = [-3] ∧
    ¬ rewardsNonneg (create_reward c7S ⟨"ノート", none, "stationery", -5, 10, true⟩).2 := by
  decide

/-- C7 (amended): the redemption channels preserve `stock >= 0` (the
decrement happens only after a positive-stock check), but admin create and
update perform no validation and can store negative stock. -/
theorem c7_stock_nonneg_amended (s : DBState) (uid rid pid : Nat)
    (h : rewardsNonneg s) :
    rewardsNonneg (exchange_reward s uid rid).2 ∧
    rewardsNonneg (redeem_product s uid pid).2 := by
  constructor
  · cases hc : redeemCheckE s uid rid with
    | error e =>
      have hs : (exchange_reward s uid rid).2 = s := by
        unfold exchange_reward; rw [hc]
      rw [hs]; exact h
    | ok p =>
      obtain ⟨_, hstock, _, _⟩ := redeemCheckE_ok_elim hc
      have hs : (exchange_reward s uid rid).2 = (redeemCommitE s uid p).2 := by
        unfold exchange_reward; rw [hc]
      rw [hs]
      intro r hr
      rcases updateFirst_mem hr with hm | ⟨a, _, rfl⟩
      · exact h r hm
      · show (0 : Int) ≤ p.reward.stock - 1
        omega
  · cases hc : findMobileProduct s pid with
    | none =>
      have hs : (redeem_product s uid pid).2 = s := by
        unfold redeem_product; rw [hc]
      rw [hs]; exact h
    | some product =>
      have hpred := List.find?_some hc
      rw [Bool.and_eq_true] at hpred
      have hst : 0 < product.stock := of_decide_eq_true hpred.2
      by_cases hb : s.latestBalance uid < product.points_required
      · have hs : (redeem_product s uid pid).2 = s := by
          unfold redeem_product; rw [hc]; dsimp only; rw [if_pos hb]
        rw [hs]; exact h
      · rw [redeem_product_ok hc (by omega)]
        intro r hr
        rcases updateFirst_mem hr with hm | ⟨a, _, rfl⟩
        · exact h r hm
        · show (0 : Int) ≤ product.stock - 1
          omega

/-- Witness for C7's amended statement: both channels keep stock at 2 ≥ 0
after redeeming from the scenario-3 state. -/
theorem c7_stock_nonneg_amended_witness :
    rewardsNonneg c1S ∧
    rewardsNonneg (exchange_reward c1S 7 1).2 ∧
    rewardsNonneg (redeem_product c1S 7 1).2 :=
  ⟨by decide,
    (c7_stock_nonneg_amended c1S 7 1 1 (by decide)).1,
    (c7_stock_nonneg_amended c1S 7 1 1 (by decide)).2⟩

/-- Reward with a single unit, user with exactly enough points for one
redemption. -/
def c8Reward : Reward := ⟨1, "ギフト", none, "gift", 1, 100, true⟩

/-- Initial state of the concurrency scenario. -/
def c8S : DBState := ⟨[⟨1, 100, "初回付与", none, 100⟩], [c8Reward], [], [], [], 1, 2⟩

/-- The snapshot both concurrent requests read before either commits. -/
def c8Plan : RedeemPlan := ⟨c8Reward, 100⟩

/-- State after the first commit. -/
def c8Mid : DBState := (redeemCommitE c8S 1 c8Plan).2

/-- State after the second commit (computed from the stale snapshot). -/
def c8End : DBState := (redeemCommitE c8Mid 1 c8Plan).2

/-- C8: the code has no locking, so two concurrent `redeem` calls that both
run the read/validation phase against the same snapshot (stock 1, balance
100 = points_required) both pass and both commit: two successes instead of
exactly one, the user's deltas sum to −100 against +100 earned (overdraft),
and the snapshot invariant is broken. -/
theorem c8_double_spend_demonstration :
    redeemCheckE c8S 1 1 = .ok c8Plan ∧
    c8S.rewards.map (fun r => r.stock) = [1] ∧
    c8End.redemptions.length = 2 ∧
    ((c8End.ledger.filter (fun e => e.user_id == 1)).map (fun e => e.delta)).sum
      = -100 ∧
    ¬ ledgerOK c8End.ledger 1 := by decide

/-- C9 counterexample: with two active rules awarding 20 and 2 points for
the same 2 kg, the rule-computed sum is 22, but each re-run raises user 7's
latest balance only by 2 (the last rule's award, chained from the pre-run
balance): the balance does not increase by the sum as the claim states. -/
theorem c9_reapply_sum_counterexample :
    apply_point_rules twoRulesS "2025-09" 0 31 = .ok twoRulesS1 ∧
    apply_point_rules twoRulesS1 "2025-09" 0 31 = .ok twoRulesS2 ∧
    ((userTotals (periodRecords twoRulesS.records 0 31)).filter
      (fun q => q.1 == 7) = [(7, 2)]) ∧
    awardOf (activePerKgRules twoRulesS.rules) 2 = 22 ∧
    twoRulesS1.latestBalance 7 = 2 ∧
    twoRulesS2.latestBalance 7 = 4 ∧
    ¬ twoRulesS2.latestBalance 7 =
        twoRulesS1.latestBalance 7 + awardOf (activePerKgRules twoRulesS.rules) 2 := by
  decide

/-- C9 (amended): a second batch application of the same period appends the
same fresh accrual entries again (same user, delta and reason), and an
eligible user's latest balance grows once more by the LAST positively
awarded amount `p` — with autoflush off every entry continues from the
pre-run balance, so only the last one survives as the new latest snapshot;
when a single rule awards positive points, `p` equals the rule-computed
sum.  Repeated runs are not idempotent. -/
theorem c9_reapply_not_idempotent (s s₁ s₂ : DBState) (period : String)
    (startD endD : Nat) (uid : Nat) (t : ℚ) (p : Int)
    (h1 : apply_point_rules s period startD endD = .ok s₁)
    (h2 : apply_point_rules s₁ period startD endD = .ok s₂)
    (ht : (userTotals (periodRecords s.records startD endD)).filter
        (fun q => q.1 == uid) = [(uid, t)])
    (hp : lastAward? (activePerKgRules s.rules) t = some p) :
    (s₂.ledger.drop s₁.ledger.length).map projEntry =
      (s₁.ledger.drop s.ledger.length).map projEntry ∧
    s₁.latestBalance uid = s.latestBalance uid + p ∧
    s₂.latestBalance uid = s.latestBalance uid + 2 * p := by
  have he1 := apply_point_rules_ok_elim h1
  have he2 := apply_point_rules_ok_elim h2
  have hrules : s₁.rules = s.rules := by rw [he1]
  have hrecs : s₁.records = s.records := by rw [he1]
  have hl1 : s₁.ledger = applyTotals period (activePerKgRules s.rules)
      (userTotals (periodRecords s.records startD endD)) s.ledger s.ledger := by
    rw [he1]
  have hl2 : s₂.ledger = applyTotals period (activePerKgRules s₁.rules)
      (userTotals (periodRecords s₁.records startD endD)) s₁.ledger s₁.ledger := by
    rw [he2]
  rw [hrules, hrecs] at hl2
  obtain ⟨ext1, e11, e12⟩ := applyTotals_ext period (activePerKgRules s.rules)
    s.ledger (userTotals (periodRecords s.records startD endD)) s.ledger
  obtain ⟨ext2, e21, e22⟩ := applyTotals_ext period (activePerKgRules s.rules)
    s₁.ledger (userTotals (periodRecords s.records startD endD)) s₁.ledger
  have hb1 : s₁.latestBalance uid = s.latestBalance uid + p := by
    show latestBalanceL s₁.ledger uid = latestBalanceL s.ledger uid + p
    rw [hl1, applyTotals_latest period (activePerKgRules s.rules) s.ledger uid t
      _ _ ht, hp]
  have hb2 : s₂.latestBalance uid = s₁.latestBalance uid + p := by
    show latestBalanceL s₂.ledger uid = latestBalanceL s₁.ledger uid + p
    rw [hl2, applyTotals_latest period (activePerKgRules s.rules) s₁.ledger uid t
      _ _ ht, hp]
  refine ⟨?_, hb1, ?_⟩
  · rw [hl2, e21, List.drop_left, e22, hl1, e11, List.drop_left, e12]
  · rw [hb2, hb1]
    ring

/-- Witness for C9: with the single 10 pt/kg rule the last award equals the
rule-computed sum 37, and re-running the 2025-09 accrual moves user 7's
balance from 37 to 74. -/
theorem c9_reapply_not_idempotent_witness :
    apply_point_rules c9S "2025-09" 0 31 = .ok c9S1 ∧
    apply_point_rules c9S1 "2025-09" 0 31 = .ok c9S2 ∧
    ((userTotals (periodRecords c9S.records 0 31)).filter
        (fun q => q.1 == 7) = [(7, 37/10)]) ∧
    lastAward? (activePerKgRules c9S.rules) (37/10) = some 37 ∧
    lastAward? (activePerKgRules c9S.rules) (37/10) =
      some (awardOf (activePerKgRules c9S.rules) (37/10)) ∧
    c9S1.latestBalance 7 = c9S.latestBalance 7 + 37 ∧
    c9S2.latestBalance 7 = c9S.latestBalance 7 + 2 * 37 :=
  ⟨by decide, by decide, by decide, by decide, by decide,
    (c9_reapply_not_idempotent c9S c9S1 c9S2 "2025-09" 0 31 7 (37/10) 37
      (by decide) (by decide) (by decide) (by decide)).2.1,
    (c9_reapply_not_idempotent c9S c9S1 c9S2 "2025-09" 0 31 7 (37/10) 37
      (by decide) (by decide) (by decide) (by decide)).2.2⟩

end BtoB
